import Mathlib

/-!
A shallow embedding of the statefulset autoscaler (`autoscaler.go`, package
`statefulset`) of the eventing repository, together with theorems about its
sizing, compaction, leader-gating and trigger behaviour.

Conventions of the embedding:

* Go `int32` values are modelled as `Int`.  None of the statements below
  involves values anywhere close to the `int32` range boundaries: theorems
  about symbolic inputs carry explicit range hypotheses under which Go
  `int32` arithmetic is exact (no wrap-around), and concrete inputs are tiny.
* Go `math.Ceil(float64(a)/float64(b))` followed by a cast back to `int32`
  is modelled by exact integer ceiling division `goCeilDiv`.  For
  `0 < b` and `|a| ≤ 2^31` this agrees with the float64 computation: the
  quotient of two such integers is never rounded across an integer boundary
  by float64 (the distance from the exact quotient to the nearest integer is
  at least `1/b > 2^-31`, while a double within the relevant magnitude has
  ulp far below that), hence `Ceil` of the rounded quotient is the exact
  ceiling.
* Fallible collaborator calls (state accessor, GetScale, UpdateScale, the
  vpod lister, the pod lister, the evictor) are modelled as `Option`-valued
  inputs or boolean outcomes, and the I/O a pass performs is recorded as an
  explicit list of `Effect`s.
* The external `st.State` snapshot type is not part of src; only the fields
  and methods the autoscaler reads are modelled, as opaque snapshot data.
-/

namespace Statefulset

/-- A `v1.Pod` object; only its identity matters to the autoscaler. -/
structure Pod where
  name : String
  deriving DecidableEq

/-- `types.NamespacedName`. -/
structure NamespacedName where
  Namespace : String
  Name : String
  deriving DecidableEq

/-- The sentinel leader-election key (`autoscaler.go` 41-49): namespace
`knative-eventing`, name `autoscaler-ephemeral`. -/
def ephemeralLeaderElectionObject : NamespacedName :=
  { Namespace := "knative-eventing", Name := "autoscaler-ephemeral" }

/-- A `reconciler.Bucket`, reduced to the only method the autoscaler uses:
`Has : NamespacedName → Bool`. -/
abbrev Bucket := NamespacedName → Bool

/-- `Promote` (`autoscaler.go` 91-97): stores `true` into the leader flag when
the bucket has the sentinel key, and always returns a nil error (modelled as
`none`).  The result is the pair (new leader flag, returned error). -/
def Promote (b : Bucket) (isLeader : Bool) : Bool × Option String :=
  if b ephemeralLeaderElectionObject then (true, none) else (isLeader, none)

/-- `Demote` (`autoscaler.go` 100-105): stores `false` into the leader flag
when the bucket has the sentinel key. -/
def Demote (b : Bucket) (isLeader : Bool) : Bool :=
  if b ephemeralLeaderElectionObject then false else isLeader

/-- `scheduler.PredicatePolicy`, reduced to its `Name` (the only field the
autoscaler inspects). -/
structure PredicatePolicy where
  Name : String
  deriving DecidableEq

/-- `scheduler.PriorityPolicy`, reduced to its `Name`. -/
structure PriorityPolicy where
  Name : String
  deriving DecidableEq

/-- `scheduler.SchedulerPolicy`: the predicate and priority lists. -/
structure SchedulerPolicy where
  Predicates : List PredicatePolicy
  Priorities : List PriorityPolicy
  deriving DecidableEq

/-- The scheduler policy kind; `doautoscale` only distinguishes
`MAXFILLUP` from everything else (the spec calls the latter POLICY_BASED). -/
inductive SchedulerPolicyType where
  | MAXFILLUP
  | POLICY_BASED
  deriving DecidableEq

/-- Policy-atom name `st.AvailabilityZonePriority`. -/
def AvailabilityZonePriority : String := "AvailabilityZonePriority"

/-- Policy-atom name `st.AvailabilityNodePriority`. -/
def AvailabilityNodePriority : String := "AvailabilityNodePriority"

/-- Policy-atom name `st.EvenPodSpread`. -/
def EvenPodSpread : String := "EvenPodSpread"

/-- `contains` (`autoscaler.go` 337-350): whether any predicate or priority in
the given lists carries the given name. -/
def contains (preds : List PredicatePolicy) (priors : List PriorityPolicy)
    (name : String) : Bool :=
  preds.any (fun v => v.Name == name) || priors.any (fun v => v.Name == name)

/-- A placement of vreplicas on a named pod (`scheduler` package, external). -/
structure Placement where
  PodName : String
  VReplicas : Int
  deriving DecidableEq

/-- A vpod, reduced to the only data `compact` reads: its placements. -/
structure VPod where
  Placements : List Placement
  deriving DecidableEq

/-- The scheduler state snapshot (`st.State`, external to src): the fields and
methods read by `doautoscale`, `mayCompact` and `compact`.  `Free` and
`FreeCapacity` are the snapshot methods `Free(ordinal)` and `FreeCapacity()`,
kept opaque exactly as the autoscaler sees them. -/
structure State where
  Replicas : Int
  LastOrdinal : Int
  NumZones : Int
  NumNodes : Int
  Capacity : Int
  FreeCap : List Int
  SchedulablePods : List Int
  SchedPolicy : Option SchedulerPolicy
  SchedulerPolicy : SchedulerPolicyType
  TotalExpectedVReplicas : Int
  TotalPending : Int
  Free : Int → Int
  FreeCapacity : Int
  PodLister : Option (String → Option Pod)

/-- `state.SchedPolicy != nil && contains(nil, state.SchedPolicy.Priorities, name)`
(the guard shape of `autoscaler.go` 192 and 195). -/
def hasPriority (sp : Option SchedulerPolicy) (name : String) : Bool :=
  match sp with
  | some p => contains [] p.Priorities name
  | none => false

/-- `state.SchedPolicy != nil && contains(state.SchedPolicy.Predicates, nil, name)`
(the guard shape of `autoscaler.go` 208). -/
def hasPredicate (sp : Option SchedulerPolicy) (name : String) : Bool :=
  match sp with
  | some p => contains p.Predicates [] name
  | none => false

/-- Go `int32(math.Ceil(float64(a) / float64(b)))`, modelled exactly: the
integer ceiling of `a / b` (for `0 < b`; see the header comment for why the
float64 route computes the same value on in-range inputs). -/
def goCeilDiv (a b : Int) : Int := -(Int.ediv (-a) b)

/-- `scaleUpFactor` computation (`autoscaler.go` 190-197): start at 1, set to
`NumZones` when the zone priority is listed, then set to `NumNodes` when the
node priority is listed (two sequential ifs; the second overrides the first). -/
def computeScaleUpFactor (s : State) : Int :=
  let f : Int := 1
  let f : Int := if hasPriority s.SchedPolicy AvailabilityZonePriority then s.NumZones else f
  if hasPriority s.SchedPolicy AvailabilityNodePriority then s.NumNodes else f

/-- Loop body of `minNonZeroInt` (`autoscaler.go` 354-358):
`if v < min && v > 0 then min = v`. -/
def minStep (m v : Int) : Int := if v < m ∧ 0 < v then v else m

/-- `minNonZeroInt` (`autoscaler.go` 352-360): fold the loop body over the
slice starting from `a.capacity`. -/
def minNonZeroInt (capacity : Int) (slice : List Int) : Int :=
  slice.foldl minStep capacity

/-- The `minNumPods` computation (`autoscaler.go` 208-213): when the
`EvenPodSpread` predicate is active and `FreeCap` is non-empty, divide the
pending count by the least non-zero capacity, otherwise by `a.capacity`;
`capacity` here is the autoscaler field `a.capacity`. -/
def minNumPodsFor (capacity : Int) (s : State) : Int :=
  if hasPredicate s.SchedPolicy EvenPodSpread && decide (0 < s.FreeCap.length) then
    goCeilDiv s.TotalPending (minNonZeroInt capacity s.FreeCap)
  else
    goCeilDiv s.TotalPending capacity

/-- `autoscaler.go` 204-215: the POLICY_BASED sizing with pending demand.
When `pending > 0`, add `ceil(minNumPods / scaleUpFactor) * scaleUpFactor` to
the ideal count `LastOrdinal + 1`; otherwise keep the ideal count. -/
def withPendingReplicas (capacity : Int) (s : State) (scaleUpFactor : Int) : Int :=
  if 0 < s.TotalPending then
    s.LastOrdinal + 1 + goCeilDiv (minNumPodsFor capacity s) scaleUpFactor * scaleUpFactor
  else s.LastOrdinal + 1

/-- `autoscaler.go` 199-221: the policy-dependent sizing before the
scale-down gate.  MAXFILLUP takes `ceil(TotalExpectedVReplicas / Capacity)`;
otherwise the pending-aware value, floored at `LastOrdinal + scaleUpFactor`
when it would not cover the last ordinal. -/
def sizedReplicas (capacity : Int) (s : State) (scaleUpFactor : Int) : Int :=
  if s.SchedulerPolicy = SchedulerPolicyType.MAXFILLUP then
    goCeilDiv s.TotalExpectedVReplicas s.Capacity
  else if withPendingReplicas capacity s scaleUpFactor ≤ s.LastOrdinal then
    s.LastOrdinal + scaleUpFactor
  else withPendingReplicas capacity s scaleUpFactor

/-- `autoscaler.go` 199-226: full sizing including the scale-down gate
(line 224: when not a scale-down tick, never go below the current count). -/
def computeNewReplicas (capacity : Int) (s : State) (scaleUpFactor replicas : Int)
    (attemptScaleDown : Bool) : Int :=
  if attemptScaleDown = false ∧ sizedReplicas capacity s scaleUpFactor < replicas then
    replicas
  else sizedReplicas capacity s scaleUpFactor

/-- Modelled from the spec: pod names encode the ordinal as a numeric suffix
and `st.OrdinalFromPodName` (external state package, not under src) decodes
it; here it reads the trailing decimal digits of the name (0 when there are
none).  The theorems below about eviction windows hold for any decoder. -/
def OrdinalFromPodName (name : String) : Int :=
  ((name.data.reverse.takeWhile (fun c => c.isDigit)).reverse).foldl
    (fun acc c => acc * 10 + ((c.toNat : Int) - 48)) 0

/-- The evictor collaborator (`scheduler.Evictor`): `true` means the eviction
call returned a nil error. -/
abbrev Evictor := Option Pod → VPod → Placement → Bool

/-- One recorded evictor invocation: the resolved pod (possibly nil), the
vpod, and the placement that was passed to the evictor. -/
structure Eviction where
  pod : Option Pod
  vpod : VPod
  place : Placement
  deriving DecidableEq

/-- The mutable state threaded through `compact` (`autoscaler.go` 305-335):
the function-scoped `pod` variable, the evictor invocations so far, and
whether an evictor error has aborted the pass. -/
structure CompactSt where
  pod : Option Pod
  evictions : List Eviction
  failed : Bool

/-- The pod-resolution retry loop (`autoscaler.go` 319-324): when the
snapshot has a pod lister, `pod, err = s.PodLister.Get(name)` (retried, but
the lister is deterministic here so one call decides it; a failing `Get`
returns a nil pod, which is what `pod` then holds); when the lister is nil
the `pod` variable is left untouched.  The poll result itself is discarded
by the source. -/
def resolvePod (podLister : Option (String → Option Pod)) (pod : Option Pod)
    (name : String) : Option Pod :=
  match podLister with
  | none => pod
  | some get => get name

/-- The values taken by the loop counter `j` in `autoscaler.go` 315:
`0, 1, ..., scaleUpFactor-1` (empty when `scaleUpFactor ≤ 0`). -/
def jInts (suf : Int) : List Int := (List.range suf.toNat).map (Nat.cast : Nat → Int)

/-- Body of the `j` loop (`autoscaler.go` 315-331): when the placement's pod
ordinal equals `LastOrdinal - j`, resolve the pod and invoke the evictor;
an evictor error aborts the rest of the pass (modelled by the `failed` flag,
which makes every later step a no-op). -/
def evictAttempt (s : State) (evictor : Evictor) (vpod : VPod) (p : Placement)
    (st : CompactSt) (j : Int) : CompactSt :=
  if st.failed then st
  else if OrdinalFromPodName p.PodName = s.LastOrdinal - j then
    { pod := resolvePod s.PodLister st.pod p.PodName
      evictions := st.evictions ++
        [{ pod := resolvePod s.PodLister st.pod p.PodName, vpod := vpod, place := p }]
      failed := !(evictor (resolvePod s.PodLister st.pod p.PodName) vpod p) }
  else st

/-- The `j` loop for one placement (`autoscaler.go` 315). -/
def processPlacement (s : State) (evictor : Evictor) (vpod : VPod) (p : Placement)
    (suf : Int) (st : CompactSt) : CompactSt :=
  (jInts suf).foldl (evictAttempt s evictor vpod p) st

/-- The placement loop for one vpod (`autoscaler.go` 314): placements are
visited from last to first. -/
def processVPod (s : State) (evictor : Evictor) (suf : Int) (st : CompactSt)
    (vpod : VPod) : CompactSt :=
  vpod.Placements.reverse.foldl (fun st2 p => processPlacement s evictor vpod p suf st2) st

/-- The outcome of an eviction pass: the evictor invocations in order, and
whether the pass completed without an error. -/
structure CompactResult where
  evictions : List Eviction
  ok : Bool
  deriving DecidableEq

/-- The eviction pass of `compact` (`autoscaler.go` 312-334) over a listed
set of vpods. -/
def compactGo (s : State) (evictor : Evictor) (vpods : List VPod) (suf : Int) :
    CompactResult :=
  { evictions := (vpods.foldl (processVPod s evictor suf)
      { pod := none, evictions := [], failed := false }).evictions
    ok := !(vpods.foldl (processVPod s evictor suf)
      { pod := none, evictions := [], failed := false }).failed }

/-- `compact` (`autoscaler.go` 305-335) including the vpod-lister call: a
lister error aborts before any eviction. -/
def compactRun (s : State) (evictor : Evictor) (vpodsRes : Option (List VPod))
    (suf : Int) : CompactResult :=
  match vpodsRes with
  | none => { evictions := [], ok := false }
  | some vpods => compactGo s evictor vpods suf

/-- Sum of `s.Free(LastOrdinal - i)` over the window loop of
`autoscaler.go` 289-292 (`i` runs while `i < scaleUpFactor` and
`LastOrdinal - i ≥ 0`). -/
def mayCompactTailFree (s : State) (suf : Int) : Int :=
  ((List.range suf.toNat).takeWhile (fun i => decide (0 ≤ s.LastOrdinal - (i : Int)))).foldl
    (fun acc i => acc + s.Free (s.LastOrdinal - (i : Int))) 0

/-- The outcome of `mayCompact`: the (possibly updated) `lastCompactAttempt`
timestamp, the evictor invocations, whether a compaction attempt was started
(which is what sets the timestamp, before the pass runs), and whether the
started pass succeeded. -/
structure MayCompactResult where
  lastCompactAttempt : Int
  evictions : List Eviction
  attempted : Bool
  compactOk : Bool

/-- `mayCompact` (`autoscaler.go` 245-303).  Wall-clock times are `Int`.
Order matters and is taken from the source: grace-window check, size
preconditions, then the policy branch; in both branches
`lastCompactAttempt = now` is assigned strictly before `compact` runs, and a
`compact` error is only logged. -/
def mayCompact (now lca rp : Int) (s : State) (suf : Int) (ev : Evictor)
    (vl : Option (List VPod)) : MayCompactResult :=
  if now < lca + rp then ⟨lca, [], false, true⟩
  else if s.LastOrdinal < 1 ∨ (s.SchedulablePods.length : Int) ≤ suf then ⟨lca, [], false, true⟩
  else if s.SchedulerPolicy = SchedulerPolicyType.MAXFILLUP then
    if s.FreeCapacity - s.Free s.LastOrdinal ≥ s.Capacity - s.Free s.LastOrdinal then
      ⟨now, (compactRun s ev vl suf).evictions, true, (compactRun s ev vl suf).ok⟩
    else ⟨lca, [], false, true⟩
  else if s.SchedPolicy.isSome then
    if s.FreeCapacity - mayCompactTailFree s suf ≥ s.Capacity * suf - mayCompactTailFree s suf
        ∧ s.Replicas - suf ≥ suf then
      ⟨now, (compactRun s ev vl suf).evictions, true, (compactRun s ev vl suf).ok⟩
    else ⟨lca, [], false, true⟩
  else ⟨lca, [], false, true⟩

/-- One observable I/O action of a `doautoscale` pass. -/
inductive Effect where
  | getState : Effect
  | getScale : Effect
  | updateScale : Int → Effect
  | evict : Option Pod → VPod → Placement → Effect
  deriving DecidableEq

/-- Everything a single `doautoscale` call depends on: the leader flag, the
tick kind, the outcomes the collaborators would return, the configured pod
capacity, and the compaction clock state. -/
structure DoautoscaleInput where
  isLeader : Bool
  attemptScaleDown : Bool
  stateRes : Option State
  scaleRes : Option Int
  updateOk : Bool
  capacity : Int
  evictor : Evictor
  vpodsRes : Option (List VPod)
  now : Int
  lastCompactAttempt : Int
  refreshPeriod : Int

/-- The outcome of a `doautoscale` call: its I/O trace, whether it returned a
nil error, and the new `lastCompactAttempt`. -/
structure DoResult where
  effects : List Effect
  ok : Bool
  lastCompactAttempt : Int
  deriving DecidableEq

/-- `doautoscale` (`autoscaler.go` 169-243).  Not leader: return nil at once
with no I/O.  Then read the state snapshot and the scale subresource (each
may fail, ending the pass with an error).  Compute the sizing; when it
differs from the current count, write it (a failed write is an error);
otherwise, on a scale-down tick, hand off to `mayCompact` (whose own errors
are only logged, so the pass still returns nil). -/
def doautoscale (a : DoautoscaleInput) : DoResult :=
  if a.isLeader = false then ⟨[], true, a.lastCompactAttempt⟩
  else
    match a.stateRes with
    | none => ⟨[Effect.getState], false, a.lastCompactAttempt⟩
    | some s =>
      match a.scaleRes with
      | none => ⟨[Effect.getState, Effect.getScale], false, a.lastCompactAttempt⟩
      | some replicas =>
        let suf := computeScaleUpFactor s
        let nr := computeNewReplicas a.capacity s suf replicas a.attemptScaleDown
        if nr ≠ replicas then
          ⟨[Effect.getState, Effect.getScale, Effect.updateScale nr], a.updateOk,
            a.lastCompactAttempt⟩
        else if a.attemptScaleDown then
          let mc := mayCompact a.now a.lastCompactAttempt a.refreshPeriod s suf
            a.evictor a.vpodsRes
          ⟨[Effect.getState, Effect.getScale] ++
              mc.evictions.map (fun e => Effect.evict e.pod e.vpod e.place),
            true, mc.lastCompactAttempt⟩
        else ⟨[Effect.getState, Effect.getScale], true, a.lastCompactAttempt⟩

/-- The trigger channel capacity (`autoscaler.go` 115:
`trigger: make(chan ..., 1)`): a single-slot mailbox. -/
def triggerCapacity : Nat := 1

/-- Go semantics of the plain buffered-channel send `a.trigger <- ...`
performed by `Autoscale` (`autoscaler.go` 147-151), in the configuration
where no receiver is currently ready: the value is enqueued when the buffer
has room (`some` of the new queue length); otherwise the SENDER BLOCKS until
room appears - nothing is dropped - modelled as `none`. -/
def AutoscalePost (queued : Nat) : Option Nat :=
  if queued < triggerCapacity then some (queued + 1) else none

/-- An evictor that always succeeds. -/
def evOk : Evictor := fun _ _ _ => true

/-- An evictor that always fails. -/
def evFail : Evictor := fun _ _ _ => false

/-- A scheduler policy listing both availability priorities (zone first). -/
def c1Policy : SchedulerPolicy :=
  { Predicates := []
    Priorities := [{ Name := AvailabilityZonePriority }, { Name := AvailabilityNodePriority }] }

/-- A snapshot whose policy lists both availability priorities, with
`NumZones = 3` and `NumNodes = 5`. -/
def c1State : State :=
  { Replicas := 3, LastOrdinal := 2, NumZones := 3, NumNodes := 5, Capacity := 10
    FreeCap := [], SchedulablePods := [], SchedPolicy := some c1Policy
    SchedulerPolicy := SchedulerPolicyType.POLICY_BASED
    TotalExpectedVReplicas := 0, TotalPending := 0, Free := fun _ => 0
    FreeCapacity := 0, PodLister := none }

/-- A scheduler policy listing only the zone priority. -/
def c2Policy : SchedulerPolicy :=
  { Predicates := [], Priorities := [{ Name := AvailabilityZonePriority }] }

/-- A MAXFILLUP snapshot that nonetheless lists the zone priority
(`NumZones = 2`), with `LastOrdinal = 2` and three schedulable pods. -/
def c2State : State :=
  { Replicas := 3, LastOrdinal := 2, NumZones := 2, NumNodes := 0, Capacity := 10
    FreeCap := [], SchedulablePods := [0, 1, 2], SchedPolicy := some c2Policy
    SchedulerPolicy := SchedulerPolicyType.MAXFILLUP
    TotalExpectedVReplicas := 30, TotalPending := 0, Free := fun _ => 10
    FreeCapacity := 30, PodLister := none }

/-- A placement on pod `p-1` (ordinal 1 = LastOrdinal - 1 of `c2State`). -/
def c2Place : Placement := { PodName := "p-1", VReplicas := 1 }

/-- A vpod holding only `c2Place`. -/
def c2VPod : VPod := { Placements := [c2Place] }

/-- A full `doautoscale` input that reaches compaction under MAXFILLUP with
`scaleUpFactor = 2`: sizing gives `ceil(30/10) = 3 = Replicas` on a
scale-down tick, past the grace window. -/
def c2Input : DoautoscaleInput :=
  { isLeader := true, attemptScaleDown := true, stateRes := some c2State
    scaleRes := some 3, updateOk := true, capacity := 10, evictor := evOk
    vpodsRes := some [c2VPod], now := 100, lastCompactAttempt := 0, refreshPeriod := 10 }

/-- Snapshot for the MAXFILLUP grow scenario: `Capacity = 10`,
`TotalExpectedVReplicas = 35`. -/
def c3State : State :=
  { Replicas := 2, LastOrdinal := 1, NumZones := 0, NumNodes := 0, Capacity := 10
    FreeCap := [], SchedulablePods := [0, 1], SchedPolicy := none
    SchedulerPolicy := SchedulerPolicyType.MAXFILLUP
    TotalExpectedVReplicas := 35, TotalPending := 0, Free := fun _ => 0
    FreeCapacity := 0, PodLister := none }

/-- The MAXFILLUP grow input: leader, scale-down tick, current replicas 2. -/
def c3Input : DoautoscaleInput :=
  { isLeader := true, attemptScaleDown := true, stateRes := some c3State
    scaleRes := some 2, updateOk := true, capacity := 10, evictor := evOk
    vpodsRes := some [], now := 0, lastCompactAttempt := 0, refreshPeriod := 10 }

/-- An input with the leader flag off. -/
def c4Input : DoautoscaleInput :=
  { isLeader := false, attemptScaleDown := true, stateRes := none
    scaleRes := none, updateOk := false, capacity := 0, evictor := evOk
    vpodsRes := none, now := 0, lastCompactAttempt := 7, refreshPeriod := 10 }

/-- A POLICY_BASED policy listing only the zone priority. -/
def c5Policy : SchedulerPolicy :=
  { Predicates := [], Priorities := [{ Name := AvailabilityZonePriority }] }

/-- A POLICY_BASED snapshot with `NumZones = 3` (so `scaleUpFactor = 3`),
one pending vreplica and `LastOrdinal = 0`. -/
def c5State : State :=
  { Replicas := 6, LastOrdinal := 0, NumZones := 3, NumNodes := 0, Capacity := 10
    FreeCap := [], SchedulablePods := [], SchedPolicy := some c5Policy
    SchedulerPolicy := SchedulerPolicyType.POLICY_BASED
    TotalExpectedVReplicas := 0, TotalPending := 1, Free := fun _ => 0
    FreeCapacity := 0, PodLister := none }

/-- A policy whose predicates list `EvenPodSpread`. -/
def c6Policy : SchedulerPolicy :=
  { Predicates := [{ Name := EvenPodSpread }], Priorities := [] }

/-- A POLICY_BASED snapshot with skewed free capacities `[0, 2, 5]` and the
`EvenPodSpread` predicate active. -/
def c6State : State :=
  { Replicas := 3, LastOrdinal := 2, NumZones := 0, NumNodes := 0, Capacity := 10
    FreeCap := [0, 2, 5], SchedulablePods := [0, 1, 2], SchedPolicy := some c6Policy
    SchedulerPolicy := SchedulerPolicyType.POLICY_BASED
    TotalExpectedVReplicas := 0, TotalPending := 6, Free := fun _ => 0
    FreeCapacity := 7, PodLister := none }

/-- A MAXFILLUP snapshot that passes every `mayCompact` precondition with
`scaleUpFactor = 1`: the free capacity below the last pod (10) covers what
the last pod holds (1). -/
def c7State : State :=
  { Replicas := 2, LastOrdinal := 1, NumZones := 0, NumNodes := 0, Capacity := 1
    FreeCap := [], SchedulablePods := [0, 1], SchedPolicy := none
    SchedulerPolicy := SchedulerPolicyType.MAXFILLUP
    TotalExpectedVReplicas := 0, TotalPending := 0, Free := fun _ => 0
    FreeCapacity := 10, PodLister := none }

/-- A snapshot with a nil pod lister and `LastOrdinal = 1`. -/
def c9State : State :=
  { Replicas := 2, LastOrdinal := 1, NumZones := 0, NumNodes := 0, Capacity := 10
    FreeCap := [], SchedulablePods := [0, 1], SchedPolicy := none
    SchedulerPolicy := SchedulerPolicyType.MAXFILLUP
    TotalExpectedVReplicas := 0, TotalPending := 0, Free := fun _ => 0
    FreeCapacity := 0, PodLister := none }

/-- A placement on pod `p-1` (the last ordinal of `c9State`). -/
def c9Place : Placement := { PodName := "p-1", VReplicas := 1 }

/-- A vpod holding only `c9Place`. -/
def c9VPod : VPod := { Placements := [c9Place] }

/-- The eviction record produced for `c9Place` under a nil pod lister. -/
def c9Rec : Eviction := { pod := none, vpod := c9VPod, place := c9Place }

/-- Exact characterization of `goCeilDiv` as the ceiling of `a / b`. -/
theorem goCeilDiv_le_mul (a b : Int) (hb : 0 < b) :
    a ≤ goCeilDiv a b * b ∧ (goCeilDiv a b - 1) * b < a := by
  have h1 : b * Int.ediv (-a) b + Int.emod (-a) b = -a := Int.ediv_add_emod (-a) b
  have h2 : 0 ≤ Int.emod (-a) b := Int.emod_nonneg (-a) (by omega)
  have h3 : Int.emod (-a) b < b := Int.emod_lt_of_pos (-a) hb
  unfold goCeilDiv
  constructor
  · nlinarith
  · nlinarith

/-- Ceiling division of a positive value by a positive value is positive. -/
theorem goCeilDiv_pos (a b : Int) (ha : 0 < a) (hb : 0 < b) : 0 < goCeilDiv a b := by
  rcases goCeilDiv_le_mul a b hb with ⟨h1, _⟩
  by_contra h
  push_neg at h
  have h2 : goCeilDiv a b * b ≤ 0 := mul_nonpos_iff.mpr (Or.inr ⟨h, le_of_lt hb⟩)
  linarith

/-- Properties of the `minNonZeroInt` fold, by induction on the slice:
the result never exceeds the start value, stays positive, is the start value
or a slice element, bounds every positive slice element from below, and is
the start value when no slice element is positive. -/
theorem minNonZero_fold (l : List Int) : ∀ m : Int,
    l.foldl minStep m ≤ m ∧
    (0 < m → 0 < l.foldl minStep m) ∧
    (l.foldl minStep m = m ∨ l.foldl minStep m ∈ l) ∧
    (∀ v ∈ l, 0 < v → l.foldl minStep m ≤ v) ∧
    ((∀ v ∈ l, v ≤ 0) → l.foldl minStep m = m) := by
  induction l with
  | nil => intro m; simp
  | cons a t ih =>
    intro m
    have hfold : (a :: t).foldl minStep m = t.foldl minStep (minStep m a) := rfl
    have hle : minStep m a ≤ m := by
      unfold minStep; split_ifs with h; exacts [le_of_lt h.1, le_refl m]
    have hpos : 0 < m → 0 < minStep m a := by
      intro hm; unfold minStep; split_ifs with h; exacts [h.2, hm]
    have hma : minStep m a = m ∨ minStep m a = a := by
      unfold minStep; split_ifs with h; exacts [Or.inr rfl, Or.inl rfl]
    have hlea : 0 < a → minStep m a ≤ a := by
      intro ha; unfold minStep; split_ifs with h
      · exact le_refl a
      · rcases not_and_or.mp h with h1 | h1
        · exact le_of_not_lt h1
        · exact absurd ha h1
    obtain ⟨i1, i2, i3, i4, i5⟩ := ih (minStep m a)
    rw [hfold]
    refine ⟨le_trans i1 hle, fun hm => i2 (hpos hm), ?_, ?_, ?_⟩
    · rcases i3 with h | h
      · rcases hma with h2 | h2
        · exact Or.inl (h.trans h2)
        · exact Or.inr (by rw [h, h2]; exact List.mem_cons_self a t)
      · exact Or.inr (List.mem_cons_of_mem a h)
    · intro v hv hvpos
      rcases List.mem_cons.mp hv with rfl | hvt
      · exact le_trans i1 (hlea hvpos)
      · exact i4 v hvt hvpos
    · intro hall
      have ha : a ≤ 0 := hall a (List.mem_cons_self a t)
      have hstep : minStep m a = m := by
        unfold minStep; split_ifs with h
        · exact absurd h.2 (not_lt.mpr ha)
        · rfl
      rw [hstep] at i5 ⊢
      exact i5 (fun v hv => hall v (List.mem_cons_of_mem a hv))

/-- `minNonZeroInt` is positive whenever the configured capacity is. -/
theorem minNonZeroInt_pos (capacity : Int) (l : List Int) (h : 0 < capacity) :
    0 < minNonZeroInt capacity l := (minNonZero_fold l capacity).2.1 h

/-- A fold preserves any invariant its step function preserves. -/
theorem foldl_preserve {α β : Type} (inv : β → Prop) (f : β → α → β) :
    ∀ l : List α, (∀ st a, a ∈ l → inv st → inv (f st a)) →
      ∀ st, inv st → inv (l.foldl f st) := by
  intro l
  induction l with
  | nil => intro _ st h; exact h
  | cons a t ih =>
    intro hstep st h
    exact ih (fun st2 b hb h2 => hstep st2 b (List.mem_cons_of_mem a hb) h2) (f st a)
      (hstep st a (List.mem_cons_self a t) h)

/-- The loop counter values of the eviction `j` loop lie in `[0, suf)`. -/
theorem mem_jInts (suf j : Int) (h : j ∈ jInts suf) : 0 ≤ j ∧ j < suf := by
  unfold jInts at h
  rcases List.mem_map.mp h with ⟨n, hn, rfl⟩
  rw [List.mem_range] at hn
  omega

/-- Inside the grace window `mayCompact` does nothing. -/
theorem mayCompact_noop (t lca rp : Int) (s : State) (suf : Int) (ev : Evictor)
    (vl : Option (List VPod)) (h : t < lca + rp) :
    mayCompact t lca rp s suf ev vl = ⟨lca, [], false, true⟩ := by
  unfold mayCompact
  rw [if_pos h]

/-- Claim C1 (amended): in `doautoscale`, `AvailabilityNodePriority` dominates
`AvailabilityZonePriority` (the two checks are sequential ifs and the node
check runs second): `scaleUpFactor` is `NumNodes` whenever the node priority
is listed, `NumZones` when only the zone priority is listed, and 1 when
neither is listed or the policy is nil. -/
theorem computeScaleUpFactor_node_overrides_zone (s : State) :
    computeScaleUpFactor s =
      (match s.SchedPolicy with
       | none => 1
       | some p =>
         if contains [] p.Priorities AvailabilityNodePriority then s.NumNodes
         else if contains [] p.Priorities AvailabilityZonePriority then s.NumZones
         else 1) := by
  unfold computeScaleUpFactor hasPriority
  cases hsp : s.SchedPolicy with
  | none => simp
  | some p =>
    by_cases hz : contains [] p.Priorities AvailabilityZonePriority <;>
      by_cases hn : contains [] p.Priorities AvailabilityNodePriority <;>
        simp [hz, hn]

/-- Claim C1 counterexample: a snapshot whose policy lists both availability
priorities, with `NumZones = 3` and `NumNodes = 5`; `scaleUpFactor` is
`NumNodes`, not `NumZones` as the claim states. -/
theorem computeScaleUpFactor_zone_dominance_false :
    hasPriority c1State.SchedPolicy AvailabilityZonePriority = true ∧
    hasPriority c1State.SchedPolicy AvailabilityNodePriority = true ∧
    computeScaleUpFactor c1State = c1State.NumNodes ∧
    computeScaleUpFactor c1State ≠ c1State.NumZones := by
  refine ⟨rfl, rfl, rfl, by decide⟩

/-- Claim C4: with the leader flag off, `doautoscale` returns a nil error at
once and performs no I/O at all: no state read, no GetScale, no UpdateScale,
no evictor call, and the compact clock is untouched. -/
theorem doautoscale_leader_gate (a : DoautoscaleInput) (h : a.isLeader = false) :
    doautoscale a = ⟨[], true, a.lastCompactAttempt⟩ := by
  unfold doautoscale
  rw [if_pos h]

/-- Witness for C4 at a concrete non-leader input. -/
theorem doautoscale_leader_gate_witness : doautoscale c4Input = ⟨[], true, 7⟩ :=
  doautoscale_leader_gate c4Input rfl

/-- Claim C3: under MAXFILLUP the sizing on a scale-down tick is exactly
`ceil(TotalExpectedVReplicas / Capacity)` (characterized by the two bounding
inequalities), and on the concrete scenario (`Capacity = 10`,
`TotalExpectedVReplicas = 35`, `Replicas = 2`, leader, scale-down tick)
the pass writes 4 to the scale subresource and performs no eviction. -/
theorem maxfillup_sizing (capacity suf replicas : Int) (s : State)
    (hpol : s.SchedulerPolicy = SchedulerPolicyType.MAXFILLUP)
    (hcap : 0 < s.Capacity)
    (hrange : 0 ≤ s.TotalExpectedVReplicas ∧ s.TotalExpectedVReplicas ≤ 2147483647) :
    (s.TotalExpectedVReplicas ≤ computeNewReplicas capacity s suf replicas true * s.Capacity ∧
     (computeNewReplicas capacity s suf replicas true - 1) * s.Capacity <
       s.TotalExpectedVReplicas) ∧
    doautoscale c3Input =
      ⟨[Effect.getState, Effect.getScale, Effect.updateScale 4], true, 0⟩ := by
  have hs : sizedReplicas capacity s suf = goCeilDiv s.TotalExpectedVReplicas s.Capacity := by
    unfold sizedReplicas; rw [if_pos hpol]
  have h1 : computeNewReplicas capacity s suf replicas true =
      goCeilDiv s.TotalExpectedVReplicas s.Capacity := by
    unfold computeNewReplicas
    rw [hs, if_neg (by simp)]
  rw [h1]
  exact ⟨goCeilDiv_le_mul _ _ hcap, by decide⟩

/-- Witness for C3 at the concrete scenario snapshot. -/
theorem maxfillup_sizing_witness :
    (c3State.TotalExpectedVReplicas ≤
        computeNewReplicas 10 c3State 1 2 true * c3State.Capacity ∧
     (computeNewReplicas 10 c3State 1 2 true - 1) * c3State.Capacity <
       c3State.TotalExpectedVReplicas) ∧
    doautoscale c3Input =
      ⟨[Effect.getState, Effect.getScale, Effect.updateScale 4], true, 0⟩ :=
  maxfillup_sizing 10 1 2 c3State rfl (by decide) (by decide)

/-- Claim C8 (amended): the trigger mailbox holds at most one pending signal,
so bursts coalesce into at most one additional wake; a post to the empty
slot completes at once, but a post to the full slot BLOCKS the caller (plain
buffered-channel send) instead of being dropped. -/
theorem AutoscalePost_slot (q : Nat) :
    (q = 0 → AutoscalePost q = some 1) ∧
    (1 ≤ q → AutoscalePost q = none) ∧
    (∀ q2, AutoscalePost q = some q2 → q2 ≤ triggerCapacity) := by
  unfold AutoscalePost triggerCapacity
  refine ⟨?_, ?_, ?_⟩
  · intro h; subst h; rfl
  · intro h; rw [if_neg (by omega)]
  · intro q2 hq
    split_ifs at hq with h
    injection hq with h2
    omega

/-- Witness for C8 (amended) at queue lengths 0 and 1. -/
theorem AutoscalePost_slot_witness :
    AutoscalePost 0 = some 1 ∧ AutoscalePost 1 = none :=
  ⟨(AutoscalePost_slot 0).1 rfl, (AutoscalePost_slot 1).2.1 (by decide)⟩

/-- Claim C8 counterexample: a post to the already-full single-slot mailbox
is not dropped with the caller left running (which would complete the send
leaving the slot as it was); it blocks. -/
theorem AutoscalePost_full_blocks :
    AutoscalePost triggerCapacity = none ∧
    AutoscalePost triggerCapacity ≠ some triggerCapacity := by
  exact ⟨rfl, by decide⟩

/-- Claim C10: Promote always returns a nil error and never clears the
leader flag; when the bucket lacks the sentinel key, both Promote and Demote
leave the flag unchanged (the flag is written only when the key is owned). -/
theorem promote_demote_frame (b : Bucket) (flag : Bool) :
    (Promote b flag).2 = none ∧
    (flag = true → (Promote b flag).1 = true) ∧
    (b ephemeralLeaderElectionObject = false →
      (Promote b flag).1 = flag ∧ Demote b flag = flag) := by
  by_cases hb : b ephemeralLeaderElectionObject
  · simp [Promote, Demote, hb]
  · simp [Promote, Demote, hb]

/-- Claim C2 (amended): every placement the evictor is invoked for in an
eviction pass has pod ordinal `LastOrdinal - j` for some `0 ≤ j <
scaleUpFactor` (hence equal to `LastOrdinal` exactly when
`scaleUpFactor = 1`).  This window is all `compact` guarantees for passes
started under MAXFILLUP too: they are run with the same `scaleUpFactor`,
which exceeds 1 when the snapshot also lists a zone or node priority, and
then pods below the last one are considered as well. -/
theorem compact_tail_window (s : State) (ev : Evictor) (vpods : List VPod) (suf : Int) :
    ∀ r ∈ (compactGo s ev vpods suf).evictions,
      (∃ j : Int, 0 ≤ j ∧ j < suf ∧
        OrdinalFromPodName r.place.PodName = s.LastOrdinal - j) ∧
      (suf = 1 → OrdinalFromPodName r.place.PodName = s.LastOrdinal) := by
  have key : ∀ r ∈ (compactGo s ev vpods suf).evictions,
      ∃ j : Int, 0 ≤ j ∧ j < suf ∧
        OrdinalFromPodName r.place.PodName = s.LastOrdinal - j := by
    have hstep1 : ∀ (vpod : VPod) (p : Placement) (st : CompactSt), ∀ j ∈ jInts suf,
        (∀ r ∈ st.evictions, ∃ j2 : Int, 0 ≤ j2 ∧ j2 < suf ∧
          OrdinalFromPodName r.place.PodName = s.LastOrdinal - j2) →
        ∀ r ∈ (evictAttempt s ev vpod p st j).evictions,
          ∃ j2 : Int, 0 ≤ j2 ∧ j2 < suf ∧
            OrdinalFromPodName r.place.PodName = s.LastOrdinal - j2 := by
      intro vpod p st j hj hinv r hr
      unfold evictAttempt at hr
      by_cases hf : st.failed
      · rw [if_pos hf] at hr; exact hinv r hr
      · rw [if_neg hf] at hr
        by_cases hg : OrdinalFromPodName p.PodName = s.LastOrdinal - j
        · rw [if_pos hg] at hr
          rcases List.mem_append.mp hr with hr2 | hr2
          · exact hinv r hr2
          · rw [List.mem_singleton] at hr2
            subst hr2
            obtain ⟨hj0, hj1⟩ := mem_jInts suf j hj
            exact ⟨j, hj0, hj1, hg⟩
        · rw [if_neg hg] at hr; exact hinv r hr
    have hstep2 : ∀ (vpod : VPod) (p : Placement) (st : CompactSt),
        (∀ r ∈ st.evictions, ∃ j2 : Int, 0 ≤ j2 ∧ j2 < suf ∧
          OrdinalFromPodName r.place.PodName = s.LastOrdinal - j2) →
        ∀ r ∈ (processPlacement s ev vpod p suf st).evictions,
          ∃ j2 : Int, 0 ≤ j2 ∧ j2 < suf ∧
            OrdinalFromPodName r.place.PodName = s.LastOrdinal - j2 := by
      intro vpod p st hinv
      unfold processPlacement
      exact foldl_preserve
        (fun st2 => ∀ r ∈ st2.evictions, ∃ j2 : Int, 0 ≤ j2 ∧ j2 < suf ∧
          OrdinalFromPodName r.place.PodName = s.LastOrdinal - j2)
        (evictAttempt s ev vpod p) (jInts suf)
        (fun st2 j hj h2 => hstep1 vpod p st2 j hj h2) st hinv
    have hstep3 : ∀ (st : CompactSt) (vpod : VPod),
        (∀ r ∈ st.evictions, ∃ j2 : Int, 0 ≤ j2 ∧ j2 < suf ∧
          OrdinalFromPodName r.place.PodName = s.LastOrdinal - j2) →
        ∀ r ∈ (processVPod s ev suf st vpod).evictions,
          ∃ j2 : Int, 0 ≤ j2 ∧ j2 < suf ∧
            OrdinalFromPodName r.place.PodName = s.LastOrdinal - j2 := by
      intro st vpod hinv
      unfold processVPod
      exact foldl_preserve
        (fun st2 => ∀ r ∈ st2.evictions, ∃ j2 : Int, 0 ≤ j2 ∧ j2 < suf ∧
          OrdinalFromPodName r.place.PodName = s.LastOrdinal - j2)
        (fun st2 p => processPlacement s ev vpod p suf st2)
        vpod.Placements.reverse (fun st2 p _ h2 => hstep2 vpod p st2 h2) st hinv
    intro r hr
    unfold compactGo at hr
    exact foldl_preserve
      (fun st2 => ∀ r2 ∈ st2.evictions, ∃ j2 : Int, 0 ≤ j2 ∧ j2 < suf ∧
        OrdinalFromPodName r2.place.PodName = s.LastOrdinal - j2)
      (processVPod s ev suf) vpods (fun st2 vp _ h2 => hstep3 st2 vp h2)
      { pod := none, evictions := [], failed := false }
      (fun r2 hr2 => absurd hr2 (List.not_mem_nil r2)) r hr
  intro r hr
  refine ⟨key r hr, ?_⟩
  intro h1
  obtain ⟨j, hj0, hj1, hj2⟩ := key r hr
  have hj : j = 0 := by omega
  rw [hj] at hj2
  omega

/-- Claim C2 counterexample: a compaction pass started under the MAXFILLUP
policy (sizing left replicas unchanged on a scale-down tick past the grace
window) invokes the evictor for the placement on pod `p-1`, whose ordinal 1
differs from `LastOrdinal = 2`: the zone priority is also listed, so
`scaleUpFactor = 2` and the last two pods are considered, not only the
single last pod. -/
theorem compact_maxfillup_last_pod_false :
    c2Input.stateRes = some c2State ∧
    c2State.SchedulerPolicy = SchedulerPolicyType.MAXFILLUP ∧
    computeScaleUpFactor c2State = 2 ∧
    Effect.evict none c2VPod c2Place ∈ (doautoscale c2Input).effects ∧
    OrdinalFromPodName c2Place.PodName ≠ c2State.LastOrdinal := by
  refine ⟨rfl, rfl, by decide, by decide, by decide⟩

/-- Witness for C2 (amended) at a concrete pass with `scaleUpFactor = 2`. -/
theorem compact_tail_window_witness :
    (∃ j : Int, 0 ≤ j ∧ j < 2 ∧
      OrdinalFromPodName c2Place.PodName = c2State.LastOrdinal - j) ∧
    ((2 : Int) = 1 → OrdinalFromPodName c2Place.PodName = c2State.LastOrdinal) :=
  compact_tail_window c2State evOk [c2VPod] 2 ⟨none, c2VPod, c2Place⟩ (by decide)

/-- Claim C5 (amended): under POLICY_BASED with pending demand and
`scaleUpFactor > 1`, the pass result minus `(LastOrdinal + 1)` is a
non-negative multiple of `scaleUpFactor` - except that on a non-scale-down
wake the scale-down gate may instead clamp the result up to the current
`Replicas`, which need not respect the multiple.  (The range hypotheses keep
Go int32/float64 arithmetic exact; they are far from binding.) -/
theorem policy_based_ha_unit (capacity suf replicas : Int) (s : State) (attempt : Bool)
    (hpol : s.SchedulerPolicy = SchedulerPolicyType.POLICY_BASED)
    (hpend : 0 < s.TotalPending) (hsuf : 1 < suf) (hcap : 0 < capacity)
    (hrange : s.TotalPending ≤ 1048576 ∧ capacity ≤ 1048576 ∧ suf ≤ 1024 ∧
      0 ≤ s.LastOrdinal ∧ s.LastOrdinal ≤ 1048576) :
    (attempt = false ∧ computeNewReplicas capacity s suf replicas attempt = replicas) ∨
    (0 ≤ computeNewReplicas capacity s suf replicas attempt - (s.LastOrdinal + 1) ∧
      suf ∣ (computeNewReplicas capacity s suf replicas attempt - (s.LastOrdinal + 1))) := by
  have hpol2 : ¬ s.SchedulerPolicy = SchedulerPolicyType.MAXFILLUP := by
    rw [hpol]; intro hc; cases hc
  have hm : 0 < minNumPodsFor capacity s := by
    unfold minNumPodsFor
    split_ifs with hsp
    · exact goCeilDiv_pos _ _ hpend (minNonZeroInt_pos capacity s.FreeCap hcap)
    · exact goCeilDiv_pos _ _ hpend hcap
  have hk : 0 < goCeilDiv (minNumPodsFor capacity s) suf :=
    goCeilDiv_pos _ _ hm (by omega)
  have hks : 0 < goCeilDiv (minNumPodsFor capacity s) suf * suf :=
    mul_pos hk (by omega)
  have hwp : withPendingReplicas capacity s suf =
      s.LastOrdinal + 1 + goCeilDiv (minNumPodsFor capacity s) suf * suf := by
    unfold withPendingReplicas; rw [if_pos hpend]
  have hsz : sizedReplicas capacity s suf =
      s.LastOrdinal + 1 + goCeilDiv (minNumPodsFor capacity s) suf * suf := by
    unfold sizedReplicas
    rw [if_neg hpol2, hwp, if_neg (by linarith)]
  have hdiff : s.LastOrdinal + 1 + goCeilDiv (minNumPodsFor capacity s) suf * suf -
      (s.LastOrdinal + 1) = goCeilDiv (minNumPodsFor capacity s) suf * suf := by ring
  unfold computeNewReplicas
  rw [hsz]
  by_cases hc : attempt = false ∧
      s.LastOrdinal + 1 + goCeilDiv (minNumPodsFor capacity s) suf * suf < replicas
  · rw [if_pos hc]; exact Or.inl ⟨hc.1, rfl⟩
  · rw [if_neg hc]
    refine Or.inr ⟨?_, ?_⟩
    · rw [hdiff]; exact le_of_lt hks
    · rw [hdiff]; exact dvd_mul_left suf _

/-- Claim C5 counterexample: a POLICY_BASED snapshot with one pending
vreplica and `scaleUpFactor = 3 > 1`, reached on a trigger wake
(`attemptScaleDown = false`) with current `Replicas = 6`: the gate lifts the
computed 4 up to 6, and `6 - (LastOrdinal + 1) = 5` is not a multiple of 3. -/
theorem policy_based_ha_unit_counterexample :
    c5State.SchedulerPolicy = SchedulerPolicyType.POLICY_BASED ∧
    0 < c5State.TotalPending ∧
    computeScaleUpFactor c5State = 3 ∧
    computeNewReplicas 10 c5State (computeScaleUpFactor c5State) 6 false = 6 ∧
    ¬ (computeScaleUpFactor c5State ∣
        (computeNewReplicas 10 c5State (computeScaleUpFactor c5State) 6 false -
          (c5State.LastOrdinal + 1))) := by
  refine ⟨rfl, by decide, by decide, by decide, by decide⟩

/-- Witness for C5 (amended) on a scale-down tick, where the multiple is
delivered. -/
theorem policy_based_ha_unit_witness :
    (true = false ∧ computeNewReplicas 10 c5State 3 6 true = 6) ∨
    (0 ≤ computeNewReplicas 10 c5State 3 6 true - (c5State.LastOrdinal + 1) ∧
      (3 : Int) ∣ (computeNewReplicas 10 c5State 3 6 true - (c5State.LastOrdinal + 1))) :=
  policy_based_ha_unit 10 3 6 c5State true rfl (by decide) (by decide) (by decide)
    (by decide)

/-- Claim C6: under the `EvenPodSpread` branch (predicate active, `FreeCap`
non-empty) the per-pod divisor of `minNumPods = ceil(pending / perPod)` is
`minNonZeroInt capacity FreeCap`, which - on snapshots satisfying the data
model bound `Free(o) ≤ Capacity` - is the minimum strictly-positive element
of `FreeCap`, falling back to `Capacity` when no element is positive. -/
theorem evenspread_divisor (capacity : Int) (s : State) (hcap : 0 < capacity)
    (hb : ∀ v ∈ s.FreeCap, v ≤ capacity)
    (hpred : hasPredicate s.SchedPolicy EvenPodSpread = true)
    (hne : s.FreeCap ≠ []) :
    minNumPodsFor capacity s =
      goCeilDiv s.TotalPending (minNonZeroInt capacity s.FreeCap) ∧
    ((∃ v ∈ s.FreeCap, 0 < v) →
      minNonZeroInt capacity s.FreeCap ∈ s.FreeCap ∧
      0 < minNonZeroInt capacity s.FreeCap ∧
      ∀ v ∈ s.FreeCap, 0 < v → minNonZeroInt capacity s.FreeCap ≤ v) ∧
    ((∀ v ∈ s.FreeCap, v ≤ 0) → minNonZeroInt capacity s.FreeCap = capacity) := by
  obtain ⟨f1, f2, f3, f4, f5⟩ := minNonZero_fold s.FreeCap capacity
  have hlen : 0 < s.FreeCap.length := List.length_pos.mpr hne
  refine ⟨?_, ?_, f5⟩
  · unfold minNumPodsFor
    rw [hpred]
    simp [hlen]
  · intro hEx
    obtain ⟨v0, hv0, hv0pos⟩ := hEx
    refine ⟨?_, f2 hcap, f4⟩
    rcases f3 with hM | hM
    · have h1 : s.FreeCap.foldl minStep capacity ≤ v0 := f4 v0 hv0 hv0pos
      have h2 : v0 ≤ capacity := hb v0 hv0
      have h3 : v0 = minNonZeroInt capacity s.FreeCap := by
        unfold minNonZeroInt
        omega
      rw [← h3]
      exact hv0
    · exact hM

/-- Witness for C6 on the skewed snapshot `FreeCap = [0, 2, 5]`. -/
theorem evenspread_divisor_witness :
    minNumPodsFor 10 c6State =
      goCeilDiv c6State.TotalPending (minNonZeroInt 10 c6State.FreeCap) ∧
    minNonZeroInt 10 c6State.FreeCap ∈ c6State.FreeCap ∧
    0 < minNonZeroInt 10 c6State.FreeCap := by
  have h := evenspread_divisor 10 c6State (by decide) (by decide) rfl (by decide)
  exact ⟨h.1, (h.2.1 ⟨2, by decide, by decide⟩).1, (h.2.1 ⟨2, by decide, by decide⟩).2.1⟩

/-- Claim C7: `mayCompact` stamps `lastCompactAttempt := now` strictly before
the eviction pass runs, so any attempt - including one whose pass fails -
consumes the grace window: a further tick arriving less than `refreshPeriod`
after the attempt makes no attempt and performs no eviction. -/
theorem mayCompact_grace (t1 lca rp : Int) (s : State) (suf : Int) (ev : Evictor)
    (vl : Option (List VPod))
    (h : (mayCompact t1 lca rp s suf ev vl).attempted = true) :
    (mayCompact t1 lca rp s suf ev vl).lastCompactAttempt = t1 ∧
    ∀ (t2 : Int) (s2 : State) (suf2 : Int) (ev2 : Evictor) (vl2 : Option (List VPod)),
      t2 < t1 + rp →
        (mayCompact t2 (mayCompact t1 lca rp s suf ev vl).lastCompactAttempt rp s2 suf2
            ev2 vl2).attempted = false ∧
        (mayCompact t2 (mayCompact t1 lca rp s suf ev vl).lastCompactAttempt rp s2 suf2
            ev2 vl2).evictions = [] := by
  have hl : (mayCompact t1 lca rp s suf ev vl).lastCompactAttempt = t1 := by
    unfold mayCompact at h ⊢
    split_ifs at h ⊢ <;> simp_all
  refine ⟨hl, ?_⟩
  intro t2 s2 suf2 ev2 vl2 ht
  rw [hl, mayCompact_noop t2 t1 rp s2 suf2 ev2 vl2 ht]
  exact ⟨rfl, rfl⟩

/-- Witness for C7: a failed-evictor attempt at time 100 still blocks the
tick at time 105 (grace window 10). -/
theorem mayCompact_grace_witness :
    (mayCompact 100 0 10 c7State 1 evFail (some [])).lastCompactAttempt = 100 ∧
    (mayCompact 105 (mayCompact 100 0 10 c7State 1 evFail (some [])).lastCompactAttempt
        10 c7State 1 evFail (some [])).attempted = false ∧
    (mayCompact 105 (mayCompact 100 0 10 c7State 1 evFail (some [])).lastCompactAttempt
        10 c7State 1 evFail (some [])).evictions = [] := by
  have h := mayCompact_grace 100 0 10 c7State 1 evFail (some []) (by decide)
  exact ⟨h.1, (h.2 105 c7State 1 evFail (some []) (by decide)).1,
    (h.2 105 c7State 1 evFail (some []) (by decide)).2⟩

/-- Claim C9: with a nil pod lister, or a pod lister whose lookups all fail,
every evictor invocation of the eviction pass receives a nil pod; the lookup
failure is swallowed - the pass only fails when the evictor itself returns an
error on one of the invocations it did receive. -/
theorem compact_nil_pod (s : State) (ev : Evictor) (vpods : List VPod) (suf : Int)
    (hL : s.PodLister = none ∨
      ∃ g : String → Option Pod, s.PodLister = some g ∧ ∀ nm, g nm = none) :
    (∀ r ∈ (compactGo s ev vpods suf).evictions, r.pod = none) ∧
    ((compactGo s ev vpods suf).ok = false →
      ∃ r ∈ (compactGo s ev vpods suf).evictions, ev r.pod r.vpod r.place = false) := by
  have hresolve : ∀ pd : Option Pod, pd = none → ∀ nm : String,
      resolvePod s.PodLister pd nm = none := by
    intro pd hpd nm
    unfold resolvePod
    rcases hL with h | ⟨g, hg, hfail⟩
    · rw [h]; exact hpd
    · rw [hg]; exact hfail nm
  have hstep1 : ∀ (vpod : VPod) (p : Placement) (st : CompactSt), ∀ j ∈ jInts suf,
      ((st.pod = none ∧ ∀ r ∈ st.evictions, r.pod = none) ∧
        (st.failed = true → ∃ r ∈ st.evictions, ev r.pod r.vpod r.place = false)) →
      (((evictAttempt s ev vpod p st j).pod = none ∧
          ∀ r ∈ (evictAttempt s ev vpod p st j).evictions, r.pod = none) ∧
        ((evictAttempt s ev vpod p st j).failed = true →
          ∃ r ∈ (evictAttempt s ev vpod p st j).evictions,
            ev r.pod r.vpod r.place = false)) := by
    intro vpod p st j hj hinv
    obtain ⟨⟨hpod, hall⟩, hfl⟩ := hinv
    unfold evictAttempt
    split_ifs with hf hg
    · exact ⟨⟨hpod, hall⟩, hfl⟩
    · have hpd : resolvePod s.PodLister st.pod p.PodName = none :=
        hresolve st.pod hpod p.PodName
      refine ⟨⟨hpd, ?_⟩, ?_⟩
      · intro r hr
        rcases List.mem_append.mp hr with hr2 | hr2
        · exact hall r hr2
        · rw [List.mem_singleton] at hr2
          subst hr2
          exact hpd
      · intro hfl2
        refine ⟨Eviction.mk (resolvePod s.PodLister st.pod p.PodName) vpod p,
          List.mem_append.mpr (Or.inr (List.mem_singleton.mpr rfl)), ?_⟩
        simpa using hfl2
    · exact ⟨⟨hpod, hall⟩, hfl⟩
  have hstep2 : ∀ (vpod : VPod) (p : Placement) (st : CompactSt),
      ((st.pod = none ∧ ∀ r ∈ st.evictions, r.pod = none) ∧
        (st.failed = true → ∃ r ∈ st.evictions, ev r.pod r.vpod r.place = false)) →
      (((processPlacement s ev vpod p suf st).pod = none ∧
          ∀ r ∈ (processPlacement s ev vpod p suf st).evictions, r.pod = none) ∧
        ((processPlacement s ev vpod p suf st).failed = true →
          ∃ r ∈ (processPlacement s ev vpod p suf st).evictions,
            ev r.pod r.vpod r.place = false)) := by
    intro vpod p st hinv
    unfold processPlacement
    exact foldl_preserve
      (fun st2 => (st2.pod = none ∧ ∀ r ∈ st2.evictions, r.pod = none) ∧
        (st2.failed = true → ∃ r ∈ st2.evictions, ev r.pod r.vpod r.place = false))
      (evictAttempt s ev vpod p) (jInts suf)
      (fun st2 j hj h2 => hstep1 vpod p st2 j hj h2) st hinv
  have hstep3 : ∀ (st : CompactSt) (vpod : VPod),
      ((st.pod = none ∧ ∀ r ∈ st.evictions, r.pod = none) ∧
        (st.failed = true → ∃ r ∈ st.evictions, ev r.pod r.vpod r.place = false)) →
      (((processVPod s ev suf st vpod).pod = none ∧
          ∀ r ∈ (processVPod s ev suf st vpod).evictions, r.pod = none) ∧
        ((processVPod s ev suf st vpod).failed = true →
          ∃ r ∈ (processVPod s ev suf st vpod).evictions,
            ev r.pod r.vpod r.place = false)) := by
    intro st vpod hinv
    unfold processVPod
    exact foldl_preserve
      (fun st2 => (st2.pod = none ∧ ∀ r ∈ st2.evictions, r.pod = none) ∧
        (st2.failed = true → ∃ r ∈ st2.evictions, ev r.pod r.vpod r.place = false))
      (fun st2 p => processPlacement s ev vpod p suf st2)
      vpod.Placements.reverse (fun st2 p _ h2 => hstep2 vpod p st2 h2) st hinv
  have hmain := foldl_preserve
    (fun st2 => (st2.pod = none ∧ ∀ r ∈ st2.evictions, r.pod = none) ∧
      (st2.failed = true → ∃ r ∈ st2.evictions, ev r.pod r.vpod r.place = false))
    (processVPod s ev suf) vpods (fun st2 vp _ h2 => hstep3 st2 vp h2)
    { pod := none, evictions := [], failed := false }
    ⟨⟨rfl, fun r hr => absurd hr (List.not_mem_nil r)⟩, by intro h2; cases h2⟩
  constructor
  · intro r hr
    exact hmain.1.2 r hr
  · intro hok
    apply hmain.2
    unfold compactGo at hok
    simpa using hok

/-- Witness for C9: a nil-pod-lister pass with a failing evictor yields an
evictor invocation with a nil pod on which the evictor failed. -/
theorem compact_nil_pod_witness :
    ∃ r ∈ (compactGo c9State evFail [c9VPod] 1).evictions,
      evFail r.pod r.vpod r.place = false :=
  (compact_nil_pod c9State evFail [c9VPod] 1 (Or.inl rfl)).2 (by decide)

/-- Witness for C10 on a bucket without the sentinel key and a set flag. -/
theorem promote_demote_frame_witness :
    (Promote (fun _ => false) true).1 = true ∧
    Demote (fun _ => false) true = true ∧
    (Promote (fun _ => false) true).2 = none :=
  ⟨(promote_demote_frame (fun _ => false) true).2.1 rfl,
   ((promote_demote_frame (fun _ => false) true).2.2 rfl).2,
   (promote_demote_frame (fun _ => false) true).1⟩

end Statefulset
